import Mathlib

/-!
Verification of the setpass password-reset service (CCI-MOC/setpass).

The embedding follows `setpass/api.py`. The persistence layer
(`setpass/model.py`, the Token Store) is not part of the sources at hand;
its operations (`User.find`, the `User` constructor defaults,
`update_timestamp_and_attempts`) are modelled from the specification's
Token Store contract and clearly marked below. The store is a list of
`User` records; SQLAlchemy row mutation and deletion are modelled as
keyed functional updates on that list.
-/

namespace Setpass

/-- Configuration options used by the workflow (`CONF.max_attempts`,
`CONF.token_expiration`). Times are integer seconds. -/
structure Config where
  max_attempts : Nat
  token_expiration : Int
deriving Repr, DecidableEq

/-- A pending password-reset request: the row of the `users` table.
`updated_at` is an integer timestamp in seconds. -/
structure User where
  user_id : String
  token : String
  pin : String
  password : String
  attempts : Nat
  updated_at : Int
deriving Repr, DecidableEq

/-- The exception taxonomy of `setpass/exception.py` as raised by
`_set_password`. -/
inductive SetpassError where
  | TokenNotFoundException
  | TokenExpiredException
  | WrongPinException
  | AccountLocked
  | OpenStackError (message : String)
deriving Repr, DecidableEq

/-- The HTTP status the `POST /` handler (`set_password`) maps each
exception to (api.py lines 61-71). -/
def errorStatus : SetpassError → Nat
  | .TokenNotFoundException => 404
  | .TokenExpiredException => 403
  | .WrongPinException => 403
  | .AccountLocked => 403
  | .OpenStackError _ => 500

/-- Modelled from the spec: Token Store `findByToken(token)`, i.e.
`model.User.find(token=...)` — resolve a token to its record. -/
def findByToken (store : List User) (token : String) : Option User :=
  store.find? (fun u => u.token = token)

/-- Modelled from the spec: Token Store `findByUserId(user_id)`, i.e.
`model.User.find(user_id=...)`. -/
def findByUserId (store : List User) (user_id : String) : Option User :=
  store.find? (fun u => u.user_id = user_id)

/-- The row update performed by `_increase_attempts` on the row of `u`
(rows are keyed by `user_id`: one request per user). -/
def bumpAttempts (u v : User) : User :=
  if v.user_id = u.user_id then { v with attempts := v.attempts + 1 } else v

/-- `_increase_attempts(user)`: increments `attempts` on the row and
commits immediately. -/
def increaseAttempts (store : List User) (u : User) : List User :=
  store.map (bumpAttempts u)

/-- `model.db.session.delete(user)`: remove the row. -/
def deleteUser (store : List User) (u : User) : List User :=
  store.filter (fun v => v.user_id ≠ u.user_id)

/-- Replace the row keyed by `uid` with `u'` (SQLAlchemy in-place row
mutation followed by commit, in the provisioning path). -/
def replaceUser (store : List User) (uid : String) (u' : User) : List User :=
  store.map (fun v => if v.user_id = uid then u' else v)

/-- `_set_password(token, pin, password)` (api.py lines 117-138).
`changePw user_id old new` is the external
`_set_openstack_password` capability: `Except.ok ()` when the call
returns 2xx, `Except.error msg` for `OpenStackError(msg)`.
Returns the store after the call together with the raised exception
(`none` = success). -/
def setPassword (cfg : Config)
    (changePw : String → String → String → Except String Unit)
    (store : List User) (token pin password : String) (now : Int) :
    List User × Option SetpassError :=
  match findByToken store token with
  | none => (store, some .TokenNotFoundException)
  | some user =>
    if user.attempts > cfg.max_attempts then
      (store, some .AccountLocked)
    else if pin ≠ user.pin then
      (increaseAttempts store user, some .WrongPinException)
    else if now - user.updated_at > cfg.token_expiration then
      (store, some .TokenExpiredException)
    else
      match changePw user.user_id user.password password with
      | .error msg => (store, some (.OpenStackError msg))
      | .ok _ => (deleteUser store user, none)

/-- The `POST /` route `set_password` (api.py lines 46-73): form
validation, then `_set_password`, mapped to an HTTP status; missing
fields are the empty string. Returns the status and the store. -/
def set_password_route (cfg : Config)
    (changePw : String → String → String → Except String Unit)
    (store : List User)
    (token password confirm_password pin : String) (now : Int) :
    Nat × List User :=
  if token = "" ∨ password = "" ∨ confirm_password = "" ∨ pin = "" then
    (400, store)
  else if password ≠ confirm_password then
    (400, store)
  else
    match setPassword cfg changePw store token pin password now with
    | (s, some e) => (errorStatus e, s)
    | (s, none) => (200, s)

/-- The JSON body of `PUT /token/<user_id>`: which of the optional
`pin` / `password` keys are present. -/
structure Payload where
  pin : Option String
  password : Option String
deriving Repr, DecidableEq

/-- Outcome of the `add` route. `unhandledError` stands for an exception
the handler does not catch (`json.loads` failure on a body that is not
valid JSON, or `KeyError` on a missing required payload key). -/
inductive AddResp where
  | unauthorized
  | forbidden
  | ok (token : String)
  | unhandledError
deriving Repr, DecidableEq

/-- HTTP status of each handled `add` outcome (api.py lines 146, 149,
172); an unhandled exception produces no response from the handler. -/
def addStatus : AddResp → Option Nat
  | .unauthorized => some 401
  | .forbidden => some 403
  | .ok _ => some 200
  | .unhandledError => none

/-- Modelled from the spec: `model.User.update_timestamp_and_attempts()`
— "always reset `attempts` to 0 and refresh `updated_at`". -/
def update_timestamp_and_attempts (u : User) (now : Int) : User :=
  { u with attempts := 0, updated_at := now }

/-- Modelled from the spec: the `model.User` constructor — a new record
starts with `attempts = 0` and `updated_at` set at creation time. -/
def newUser (user_id token pin password : String) (now : Int) : User :=
  { user_id := user_id, token := token, pin := pin, password := password,
    attempts := 0, updated_at := now }

/-- The `PUT /token/<user_id>` route `add` (api.py lines 141-172).
`check_admin` is the external `_check_admin_token` capability;
`fresh_token` the value of `str(uuid.uuid4())`; `x_auth_token` the
optional `x-auth-token` header (Python falsiness: absent or empty both
fail the `if not token` check); `body` is `none` when the request data
is not valid JSON. -/
def add (check_admin : String → Bool) (fresh_token : String) (now : Int)
    (store : List User) (user_id : String)
    (x_auth_token : Option String) (body : Option Payload) :
    AddResp × List User :=
  match x_auth_token with
  | none => (.unauthorized, store)
  | some tok =>
    if tok = "" then
      (.unauthorized, store)
    else if ¬ check_admin tok then
      (.forbidden, store)
    else
      match body with
      | none => (.unhandledError, store)
      | some payload =>
        match findByUserId store user_id with
        | some user =>
          let user' := update_timestamp_and_attempts
            { user with
              pin := payload.pin.getD user.pin,
              password := payload.password.getD user.password,
              token := fresh_token } now
          (.ok fresh_token, replaceUser store user.user_id user')
        | none =>
          match payload.pin, payload.password with
          | some p, some pw =>
            (.ok fresh_token, store ++ [newUser user_id fresh_token p pw now])
          | _, _ => (.unhandledError, store)

/-- Store well-formedness: the spec's Data Model invariants — at most one
request per `user_id`, tokens globally unique. -/
def WfStore (store : List User) : Prop :=
  store.Pairwise (fun a b => a.user_id ≠ b.user_id ∧ a.token ≠ b.token)

instance (store : List User) : Decidable (WfStore store) :=
  List.instDecidablePairwise store

/-- The store after `j` successive redemption calls with the same (wrong)
PIN against the same token. -/
def afterWrong (cfg : Config)
    (changePw : String → String → String → Except String Unit)
    (token pin password : String) (now : Int) :
    Nat → List User → List User
  | 0, s => s
  | j + 1, s =>
    (setPassword cfg changePw (afterWrong cfg changePw token pin password now j s)
      token pin password now).1

/-! ### Concrete fixtures, mirroring the repository's unit tests -/

/-- An external password-change capability that always succeeds (the
test suite's `mocker.patch(..., return_value=True)`). -/
def cpOk : String → String → String → Except String Unit :=
  fun _ _ _ => Except.ok ()

/-- An admin check that accepts every credential. -/
def chkOk : String → Bool := fun _ => true

/-- An admin check that rejects every credential. -/
def chkNo : String → Bool := fun _ => false

/-- A configuration with `max_attempts = 2`, `token_expiration = 300`. -/
def cfgW : Config := { max_attempts := 2, token_expiration := 300 }

/-- A configuration with `max_attempts = 1`, `token_expiration = 300`. -/
def cfg1 : Config := { max_attempts := 1, token_expiration := 300 }

/-- A freshly provisioned request (`attempts = 0`). -/
def uW : User :=
  { user_id := "uid1", token := "tok1", pin := "1234", password := "oldpw",
    attempts := 0, updated_at := 0 }

/-- A locked request (`attempts = 5 > max_attempts` for `cfgW`). -/
def uL : User :=
  { user_id := "uid1", token := "tok1", pin := "1234", password := "oldpw",
    attempts := 5, updated_at := 0 }

/-- A request with one failed attempt recorded. -/
def uA : User :=
  { user_id := "uid1", token := "tok1", pin := "1234", password := "oldpw",
    attempts := 1, updated_at := 0 }

/-- Singleton stores for the fixtures above. -/
def storeW : List User := [uW]

def storeL : List User := [uL]

def storeA : List User := [uA]

/-! ### Basic lemmas about the store operations -/

theorem bumpAttempts_user_id (u v : User) : (bumpAttempts u v).user_id = v.user_id := by
  unfold bumpAttempts; split <;> rfl

theorem bumpAttempts_token (u v : User) : (bumpAttempts u v).token = v.token := by
  unfold bumpAttempts; split <;> rfl

theorem bumpAttempts_pin (u v : User) : (bumpAttempts u v).pin = v.pin := by
  unfold bumpAttempts; split <;> rfl

theorem bumpAttempts_le (u v : User) : v.attempts ≤ (bumpAttempts u v).attempts := by
  unfold bumpAttempts; split
  · exact Nat.le_succ _
  · exact Nat.le_refl _

theorem bumpAttempts_self (u : User) :
    bumpAttempts u u = { u with attempts := u.attempts + 1 } := by
  unfold bumpAttempts; simp

theorem findByToken_some_token {store : List User} {token : String} {u : User}
    (h : findByToken store token = some u) : u.token = token := by
  have := List.find?_some h
  simpa using this

theorem findByToken_some_mem {store : List User} {token : String} {u : User}
    (h : findByToken store token = some u) : u ∈ store :=
  List.mem_of_find?_eq_some h

theorem findByUserId_some_user_id {store : List User} {uid : String} {u : User}
    (h : findByUserId store uid = some u) : u.user_id = uid := by
  have := List.find?_some h
  simpa using this

theorem findByUserId_some_mem {store : List User} {uid : String} {u : User}
    (h : findByUserId store uid = some u) : u ∈ store :=
  List.mem_of_find?_eq_some h

theorem findByToken_increaseAttempts (store : List User) (u : User) (token : String) :
    findByToken (increaseAttempts store u) token =
      (findByToken store token).map (bumpAttempts u) := by
  unfold findByToken increaseAttempts
  rw [List.find?_map]
  have hp : ((fun v : User => decide (v.token = token)) ∘ bumpAttempts u)
      = fun v : User => decide (v.token = token) := by
    funext v
    simp [Function.comp, bumpAttempts_token]
  rw [hp]

theorem findByUserId_increaseAttempts (store : List User) (u : User) (uid : String) :
    findByUserId (increaseAttempts store u) uid =
      (findByUserId store uid).map (bumpAttempts u) := by
  unfold findByUserId increaseAttempts
  rw [List.find?_map]
  have hp : ((fun v : User => decide (v.user_id = uid)) ∘ bumpAttempts u)
      = fun v : User => decide (v.user_id = uid) := by
    funext v
    simp [Function.comp, bumpAttempts_user_id]
  rw [hp]

theorem wf_symm :
    Symmetric (fun a b : User => a.user_id ≠ b.user_id ∧ a.token ≠ b.token) := by
  intro a b hab
  exact ⟨hab.1.symm, hab.2.symm⟩

theorem wf_increaseAttempts {store : List User} (u : User) (h : WfStore store) :
    WfStore (increaseAttempts store u) := by
  unfold WfStore increaseAttempts
  rw [List.pairwise_map]
  refine h.imp ?_
  intro a b hab
  exact ⟨by simpa [bumpAttempts_user_id] using hab.1,
         by simpa [bumpAttempts_token] using hab.2⟩

theorem wf_userId_unique {store : List User} (hwf : WfStore store) {a b : User}
    (ha : a ∈ store) (hb : b ∈ store) (h : a.user_id = b.user_id) : a = b := by
  by_contra hne
  exact (List.Pairwise.forall wf_symm hwf ha hb hne).1 h

theorem findByToken_deleteUser {store : List User} {token : String} {u : User}
    (hwf : WfStore store) (hfind : findByToken store token = some u) :
    findByToken (deleteUser store u) token = none := by
  unfold findByToken deleteUser
  rw [List.find?_eq_none]
  intro v hv
  have hvmem : v ∈ store := List.mem_of_mem_filter hv
  have hvne : v.user_id ≠ u.user_id := by simpa using List.of_mem_filter hv
  have humem : u ∈ store := findByToken_some_mem hfind
  have hutok : u.token = token := findByToken_some_token hfind
  have hne : v ≠ u := fun he => hvne (he ▸ rfl)
  have hR := List.Pairwise.forall wf_symm hwf hvmem humem hne
  simp only [decide_eq_true_eq]
  intro hvt
  exact hR.2 (hvt.trans hutok.symm)

theorem findByUserId_deleteUser (store : List User) (u : User) :
    findByUserId (deleteUser store u) u.user_id = none := by
  unfold findByUserId deleteUser
  rw [List.find?_eq_none]
  intro v hv
  have hvne : v.user_id ≠ u.user_id := by simpa using List.of_mem_filter hv
  simpa using hvne

/-! ### Branch lemmas for `_set_password` -/

theorem setPassword_tokenNotFound {cfg : Config}
    {changePw : String → String → String → Except String Unit}
    {store : List User} {token pin password : String} {now : Int}
    (h : findByToken store token = none) :
    setPassword cfg changePw store token pin password now
      = (store, some .TokenNotFoundException) := by
  unfold setPassword
  rw [h]

theorem setPassword_locked {cfg : Config}
    {changePw : String → String → String → Except String Unit}
    {store : List User} {token pin password : String} {now : Int} {u : User}
    (h : findByToken store token = some u)
    (hl : u.attempts > cfg.max_attempts) :
    setPassword cfg changePw store token pin password now
      = (store, some .AccountLocked) := by
  unfold setPassword
  rw [h]
  simp [hl]

theorem setPassword_wrongPin {cfg : Config}
    {changePw : String → String → String → Except String Unit}
    {store : List User} {token pin password : String} {now : Int} {u : User}
    (h : findByToken store token = some u)
    (hl : ¬ u.attempts > cfg.max_attempts)
    (hp : pin ≠ u.pin) :
    setPassword cfg changePw store token pin password now
      = (increaseAttempts store u, some .WrongPinException) := by
  unfold setPassword
  rw [h]
  simp [hl, hp]

theorem setPassword_expired {cfg : Config}
    {changePw : String → String → String → Except String Unit}
    {store : List User} {token pin password : String} {now : Int} {u : User}
    (h : findByToken store token = some u)
    (hl : ¬ u.attempts > cfg.max_attempts)
    (hp : pin = u.pin)
    (he : now - u.updated_at > cfg.token_expiration) :
    setPassword cfg changePw store token pin password now
      = (store, some .TokenExpiredException) := by
  unfold setPassword
  rw [h]
  simp [hl, hp, he]

theorem setPassword_upstreamError {cfg : Config}
    {changePw : String → String → String → Except String Unit}
    {store : List User} {token pin password : String} {now : Int} {u : User}
    {msg : String}
    (h : findByToken store token = some u)
    (hl : ¬ u.attempts > cfg.max_attempts)
    (hp : pin = u.pin)
    (he : ¬ now - u.updated_at > cfg.token_expiration)
    (hcp : changePw u.user_id u.password password = .error msg) :
    setPassword cfg changePw store token pin password now
      = (store, some (.OpenStackError msg)) := by
  unfold setPassword
  rw [h]
  simp [hl, hp, he, hcp]

theorem setPassword_success {cfg : Config}
    {changePw : String → String → String → Except String Unit}
    {store : List User} {token pin password : String} {now : Int} {u : User}
    (h : findByToken store token = some u)
    (hl : ¬ u.attempts > cfg.max_attempts)
    (hp : pin = u.pin)
    (he : ¬ now - u.updated_at > cfg.token_expiration)
    (hcp : changePw u.user_id u.password password = .ok ()) :
    setPassword cfg changePw store token pin password now
      = (deleteUser store u, none) := by
  unfold setPassword
  rw [h]
  simp [hl, hp, he, hcp]

/-- Exhaustive description of a `_set_password` call: either the token is
unknown, or the record is found and the call ends in exactly one of the
five remaining ways. -/
theorem setPassword_cases (cfg : Config)
    (changePw : String → String → String → Except String Unit)
    (store : List User) (token pin password : String) (now : Int) :
    (findByToken store token = none
      ∧ setPassword cfg changePw store token pin password now
          = (store, some .TokenNotFoundException))
    ∨ (∃ u, findByToken store token = some u ∧
        (setPassword cfg changePw store token pin password now
            = (store, some .AccountLocked)
         ∨ setPassword cfg changePw store token pin password now
            = (increaseAttempts store u, some .WrongPinException)
         ∨ setPassword cfg changePw store token pin password now
            = (store, some .TokenExpiredException)
         ∨ (∃ msg, setPassword cfg changePw store token pin password now
            = (store, some (.OpenStackError msg)))
         ∨ setPassword cfg changePw store token pin password now
            = (deleteUser store u, none))) := by
  cases hf : findByToken store token with
  | none => exact Or.inl ⟨rfl, setPassword_tokenNotFound hf⟩
  | some u =>
    refine Or.inr ⟨u, rfl, ?_⟩
    by_cases hl : u.attempts > cfg.max_attempts
    · exact Or.inl (setPassword_locked hf hl)
    by_cases hp : pin = u.pin
    · by_cases he : now - u.updated_at > cfg.token_expiration
      · exact Or.inr (Or.inr (Or.inl (setPassword_expired hf hl hp he)))
      · cases hcp : changePw u.user_id u.password password with
        | error msg =>
          exact Or.inr (Or.inr (Or.inr (Or.inl
            ⟨msg, setPassword_upstreamError hf hl hp he hcp⟩)))
        | ok uu =>
          cases uu
          exact Or.inr (Or.inr (Or.inr (Or.inr
            (setPassword_success hf hl hp he hcp))))
    · exact Or.inr (Or.inl (setPassword_wrongPin hf hl hp))

/-! ### Iterated wrong-PIN attempts -/

theorem afterWrong_invariant {cfg : Config}
    {changePw : String → String → String → Except String Unit}
    {store : List User} {token pin password : String} {now : Int} {u : User}
    (hwf : WfStore store)
    (hfind : findByToken store token = some u)
    (h0 : u.attempts = 0)
    (hp : pin ≠ u.pin) :
    ∀ j, j ≤ cfg.max_attempts + 1 →
      findByToken (afterWrong cfg changePw token pin password now j store) token
        = some { u with attempts := j }
      ∧ WfStore (afterWrong cfg changePw token pin password now j store) := by
  intro j
  induction j with
  | zero =>
    intro _
    refine ⟨?_, hwf⟩
    have hu : ({ u with attempts := 0 } : User) = u := by
      cases u
      simp_all
    rw [hu]
    exact hfind
  | succ j ih =>
    intro hj
    obtain ⟨hfj, hwfj⟩ := ih (Nat.le_of_succ_le hj)
    have hjmax : j ≤ cfg.max_attempts := Nat.lt_succ_iff.mp (Nat.lt_of_succ_le hj)
    have hnl : ¬ ({ u with attempts := j } : User).attempts > cfg.max_attempts := by
      simpa using Nat.not_lt.mpr hjmax
    have hpin : pin ≠ ({ u with attempts := j } : User).pin := hp
    have hstep := @setPassword_wrongPin cfg changePw
      (afterWrong cfg changePw token pin password now j store) token pin password now
      { u with attempts := j } hfj hnl hpin
    constructor
    · show findByToken
        (setPassword cfg changePw (afterWrong cfg changePw token pin password now j store)
          token pin password now).1 token = some { u with attempts := j + 1 }
      rw [hstep]
      rw [findByToken_increaseAttempts, hfj]
      simp [bumpAttempts_self]
    · show WfStore
        (setPassword cfg changePw (afterWrong cfg changePw token pin password now j store)
          token pin password now).1
      rw [hstep]
      exact wf_increaseAttempts _ hwfj

/-! ### Lemmas for the provisioning route -/

theorem findByUserId_replaceUser (store : List User) (uid : String) (u' : User)
    (hu : u'.user_id = uid) :
    findByUserId (replaceUser store uid u') uid
      = (findByUserId store uid).map (fun v => if v.user_id = uid then u' else v) := by
  unfold findByUserId replaceUser
  rw [List.find?_map]
  have hp : ((fun v : User => decide (v.user_id = uid))
        ∘ fun v => if v.user_id = uid then u' else v)
      = fun v : User => decide (v.user_id = uid) := by
    funext v
    by_cases h : v.user_id = uid <;> simp [Function.comp, h, hu]
  rw [hp]

/-- Evaluation of the `add` route on an existing record, with a valid
credential accepted by the external admin check. -/
theorem add_existing {check_admin : String → Bool} {fresh_token : String} {now : Int}
    {store : List User} {user_id tok : String} {payload : Payload} {u : User}
    (htok : tok ≠ "") (hadm : check_admin tok = true)
    (hfind : findByUserId store user_id = some u) :
    add check_admin fresh_token now store user_id (some tok) (some payload)
      = (.ok fresh_token,
         replaceUser store u.user_id
           { user_id := u.user_id, token := fresh_token,
             pin := payload.pin.getD u.pin,
             password := payload.password.getD u.password,
             attempts := 0, updated_at := now }) := by
  unfold add
  simp [htok, hadm, hfind, update_timestamp_and_attempts]

/-! ## Claim theorems -/

/-- C1: For every stored reset request, redeeming its token with the
correct PIN, with attempts not exceeding `max_attempts`, before expiry,
and with the external password-change call succeeding, succeeds and
deletes the record; a second redemption with the same token then fails
with `TokenNotFound`. -/
theorem redeem_correct_pin_succeeds_once
    (cfg : Config) (changePw : String → String → String → Except String Unit)
    (store : List User) (token pin password : String) (now : Int) (u : User)
    (hwf : WfStore store)
    (hfind : findByToken store token = some u)
    (hatt : u.attempts ≤ cfg.max_attempts)
    (hpin : pin = u.pin)
    (hexp : now - u.updated_at ≤ cfg.token_expiration)
    (hcp : changePw u.user_id u.password password = .ok ()) :
    setPassword cfg changePw store token pin password now = (deleteUser store u, none)
    ∧ findByToken (deleteUser store u) token = none
    ∧ findByUserId (deleteUser store u) u.user_id = none
    ∧ ∀ pin2 password2 now2,
        setPassword cfg changePw (deleteUser store u) token pin2 password2 now2
          = (deleteUser store u, some .TokenNotFoundException) := by
  have hnl : ¬ u.attempts > cfg.max_attempts := Nat.not_lt.mpr hatt
  have hne : ¬ now - u.updated_at > cfg.token_expiration := not_lt.mpr hexp
  have h1 := setPassword_success hfind hnl hpin hne hcp
  have h2 := findByToken_deleteUser hwf hfind
  exact ⟨h1, h2, findByUserId_deleteUser store u,
    fun pin2 password2 now2 => setPassword_tokenNotFound h2⟩

/-- C1, at a concrete request. -/
theorem redeem_correct_pin_succeeds_once_witness :
    (WfStore storeW ∧ findByToken storeW "tok1" = some uW
      ∧ uW.attempts ≤ cfgW.max_attempts
      ∧ (0 : Int) - uW.updated_at ≤ cfgW.token_expiration)
    ∧ setPassword cfgW cpOk storeW "tok1" "1234" "np" 0 = (deleteUser storeW uW, none)
    ∧ setPassword cfgW cpOk (deleteUser storeW uW) "tok1" "1234" "np" 0
        = (deleteUser storeW uW, some SetpassError.TokenNotFoundException) := by
  have h := redeem_correct_pin_succeeds_once cfgW cpOk storeW "tok1" "1234" "np" 0 uW
    (by decide) (by decide) (by decide) (by decide) (by decide) rfl
  exact ⟨⟨by decide, by decide, by decide, by decide⟩, h.1, h.2.2.2 "1234" "np" 0⟩

/-- C3: For every stored reset request with `attempts > max_attempts`,
every redemption attempt against its token fails with `AccountLocked`
regardless of the supplied PIN, and the store (in particular the
record's attempts) is left unchanged. -/
theorem locked_account_rejects_all
    (cfg : Config) (changePw : String → String → String → Except String Unit)
    (store : List User) (token : String) (u : User)
    (hfind : findByToken store token = some u)
    (hlock : u.attempts > cfg.max_attempts) :
    ∀ pin password now,
      setPassword cfg changePw store token pin password now
        = (store, some .AccountLocked) :=
  fun _ _ _ => setPassword_locked hfind hlock

/-- C3, at a concrete locked request, with a correct and a wrong PIN. -/
theorem locked_account_rejects_all_witness :
    (findByToken storeL "tok1" = some uL ∧ uL.attempts > cfgW.max_attempts)
    ∧ setPassword cfgW cpOk storeL "tok1" "1234" "np" 0
        = (storeL, some SetpassError.AccountLocked)
    ∧ setPassword cfgW cpOk storeL "tok1" "0000" "np" 0
        = (storeL, some SetpassError.AccountLocked) := by
  have h := locked_account_rejects_all cfgW cpOk storeL "tok1" uL (by decide) (by decide)
  exact ⟨⟨by decide, by decide⟩, h "1234" "np" 0, h "0000" "np" 0⟩

/-- C5: For every stored reset request that is not locked
(`attempts ≤ max_attempts`), a redemption attempt with a PIN different
from the stored PIN fails with `WrongPin` and increments the record's
attempts by exactly 1; the increment is in the store returned alongside
the failure (persisted by `_increase_attempts` even though the overall
call raises). -/
theorem wrong_pin_increments_attempts
    (cfg : Config) (changePw : String → String → String → Except String Unit)
    (store : List User) (token pin password : String) (now : Int) (u : User)
    (hfind : findByToken store token = some u)
    (hatt : u.attempts ≤ cfg.max_attempts)
    (hpin : pin ≠ u.pin) :
    setPassword cfg changePw store token pin password now
      = (increaseAttempts store u, some .WrongPinException)
    ∧ findByToken (increaseAttempts store u) token
      = some { u with attempts := u.attempts + 1 } := by
  have hnl : ¬ u.attempts > cfg.max_attempts := Nat.not_lt.mpr hatt
  refine ⟨setPassword_wrongPin hfind hnl hpin, ?_⟩
  rw [findByToken_increaseAttempts, hfind]
  simp [bumpAttempts_self]

/-- C5, at a concrete request and wrong PIN. -/
theorem wrong_pin_increments_attempts_witness :
    ("0000" ≠ uW.pin ∧ uW.attempts ≤ cfgW.max_attempts)
    ∧ setPassword cfgW cpOk storeW "tok1" "0000" "np" 0
        = (increaseAttempts storeW uW, some SetpassError.WrongPinException)
    ∧ findByToken (increaseAttempts storeW uW) "tok1"
        = some { uW with attempts := uW.attempts + 1 } := by
  have h := wrong_pin_increments_attempts cfgW cpOk storeW "tok1" "0000" "np" 0 uW
    (by decide) (by decide) (by decide)
  exact ⟨⟨by decide, by decide⟩, h.1, h.2⟩

/-- C6: Every failing redemption attempt leaves the store exactly as it
was, except for the attempts increment on `WrongPin`; in particular,
redeeming after `updated_at + token_expiration` has elapsed fails with
`TokenExpired` and the record remains present with all fields
unchanged. -/
theorem failed_redemption_frame
    (cfg : Config) (changePw : String → String → String → Except String Unit)
    (store : List User) (token pin password : String) (now : Int) :
    (∀ e, (setPassword cfg changePw store token pin password now).2 = some e →
        e ≠ .WrongPinException →
        (setPassword cfg changePw store token pin password now).1 = store)
    ∧ ((setPassword cfg changePw store token pin password now).2
          = some .WrongPinException →
        ∃ u, findByToken store token = some u ∧
          (setPassword cfg changePw store token pin password now).1
            = increaseAttempts store u)
    ∧ (∀ u, findByToken store token = some u → u.attempts ≤ cfg.max_attempts →
        pin = u.pin → now - u.updated_at > cfg.token_expiration →
        setPassword cfg changePw store token pin password now
          = (store, some .TokenExpiredException)
        ∧ findByToken store token = some u) := by
  refine ⟨?_, ?_, ?_⟩
  · intro e he hne
    rcases setPassword_cases cfg changePw store token pin password now with
      ⟨_, heq⟩ | ⟨u, _, hcase⟩
    · rw [heq]
    · rcases hcase with heq | heq | heq | ⟨msg, heq⟩ | heq
      · rw [heq]
      · rw [heq] at he
        exact absurd (Option.some.inj he).symm hne
      · rw [heq]
      · rw [heq]
      · rw [heq] at he
        exact Option.noConfusion he
  · intro he
    rcases setPassword_cases cfg changePw store token pin password now with
      ⟨_, heq⟩ | ⟨u, hf, hcase⟩
    · rw [heq] at he
      exact SetpassError.noConfusion (Option.some.inj he)
    · rcases hcase with heq | heq | heq | ⟨msg, heq⟩ | heq
      · rw [heq] at he
        exact SetpassError.noConfusion (Option.some.inj he)
      · exact ⟨u, hf, by rw [heq]⟩
      · rw [heq] at he
        exact SetpassError.noConfusion (Option.some.inj he)
      · rw [heq] at he
        exact SetpassError.noConfusion (Option.some.inj he)
      · rw [heq] at he
        exact Option.noConfusion he
  · intro u hf hatt hpin hexp
    exact ⟨setPassword_expired hf (Nat.not_lt.mpr hatt) hpin hexp, hf⟩

/-- C6, at concrete requests: one locked call (store untouched), one
expired call (`TokenExpired`, record still present). -/
theorem failed_redemption_frame_witness :
    (setPassword cfgW cpOk storeL "tok1" "1234" "np" 0).1 = storeL
    ∧ (setPassword cfgW cpOk storeW "tok1" "1234" "np" 1000
          = (storeW, some SetpassError.TokenExpiredException)
       ∧ findByToken storeW "tok1" = some uW) := by
  refine ⟨?_, ?_⟩
  · exact (failed_redemption_frame cfgW cpOk storeL "tok1" "1234" "np" 0).1
      SetpassError.AccountLocked (by decide) (by decide)
  · exact (failed_redemption_frame cfgW cpOk storeW "tok1" "1234" "np" 1000).2.2 uW
      (by decide) (by decide) (by decide) (by decide)

/-- C9: In redemption the PIN check precedes the expiry check: a wrong
PIN against an already-expired (but not locked) record still increments
attempts, and a record that is both locked and expired reports
`AccountLocked`, not `TokenExpired`. -/
theorem pin_check_precedes_expiry
    (cfg : Config) (changePw : String → String → String → Except String Unit)
    (store : List User) (token pin password : String) (now : Int) (u : User)
    (hfind : findByToken store token = some u)
    (_hexp : now - u.updated_at > cfg.token_expiration) :
    (u.attempts ≤ cfg.max_attempts → pin ≠ u.pin →
      setPassword cfg changePw store token pin password now
        = (increaseAttempts store u, some .WrongPinException)
      ∧ findByToken (increaseAttempts store u) token
        = some { u with attempts := u.attempts + 1 })
    ∧ (u.attempts > cfg.max_attempts →
      ∀ pin2 password2,
        setPassword cfg changePw store token pin2 password2 now
          = (store, some .AccountLocked)) := by
  constructor
  · intro hatt hpin
    refine ⟨setPassword_wrongPin hfind (Nat.not_lt.mpr hatt) hpin, ?_⟩
    rw [findByToken_increaseAttempts, hfind]
    simp [bumpAttempts_self]
  · intro hlock pin2 password2
    exact setPassword_locked hfind hlock

/-- C9, at concrete requests, both well past expiry (`now = 1000`,
`token_expiration = 300`). -/
theorem pin_check_precedes_expiry_witness :
    ((1000 : Int) - uW.updated_at > cfgW.token_expiration)
    ∧ setPassword cfgW cpOk storeW "tok1" "0000" "np" 1000
        = (increaseAttempts storeW uW, some SetpassError.WrongPinException)
    ∧ setPassword cfgW cpOk storeL "tok1" "1234" "np" 1000
        = (storeL, some SetpassError.AccountLocked) := by
  refine ⟨by decide, ?_, ?_⟩
  · exact ((pin_check_precedes_expiry cfgW cpOk storeW "tok1" "0000" "np" 1000 uW
      (by decide) (by decide)).1 (by decide) (by decide)).1
  · exact (pin_check_precedes_expiry cfgW cpOk storeL "tok1" "1234" "np" 1000 uL
      (by decide) (by decide)).2 (by decide) "1234" "np"

/-- C2 as stated is false on the code: with `max_attempts = 1` and a
fresh request, the first wrong-PIN attempt returns `WrongPin`, but the
`max_attempts + 1`-th (second) attempt with the correct PIN succeeds
(the lockout check is `attempts > max_attempts`, and `attempts` is only
`1` at that point) instead of failing with `AccountLocked`. -/
theorem lockout_threshold_counterexample :
    (setPassword cfg1 cpOk storeW "tok1" "0000" "np" 0).2
      = some SetpassError.WrongPinException
    ∧ (setPassword cfg1 cpOk (setPassword cfg1 cpOk storeW "tok1" "0000" "np" 0).1
        "tok1" "1234" "np" 0).2 = none
    ∧ (setPassword cfg1 cpOk (setPassword cfg1 cpOk storeW "tok1" "0000" "np" 0).1
        "tok1" "1234" "np" 0).2 ≠ some SetpassError.AccountLocked := by
  decide

/-- C2 (amended): starting from a fresh request (`attempts = 0`), each of
the first `max_attempts + 1` wrong-PIN redemption attempts fails with
`WrongPin` (HTTP 403), and the `max_attempts + 2`-th attempt fails with
`AccountLocked` (HTTP 403) regardless of the supplied PIN, even when
correct. -/
theorem lockout_after_max_attempts_plus_one
    (cfg : Config) (changePw : String → String → String → Except String Unit)
    (store : List User) (token pin password : String) (now : Int) (u : User)
    (hwf : WfStore store)
    (hfind : findByToken store token = some u)
    (h0 : u.attempts = 0)
    (hp : pin ≠ u.pin) :
    (∀ j, j ≤ cfg.max_attempts →
      (setPassword cfg changePw (afterWrong cfg changePw token pin password now j store)
        token pin password now).2 = some .WrongPinException)
    ∧ (∀ pin2 password2 now2,
      (setPassword cfg changePw
        (afterWrong cfg changePw token pin password now (cfg.max_attempts + 1) store)
        token pin2 password2 now2).2 = some .AccountLocked)
    ∧ errorStatus .WrongPinException = 403
    ∧ errorStatus .AccountLocked = 403 := by
  have hinv := @afterWrong_invariant cfg changePw store token pin password now u
    hwf hfind h0 hp
  refine ⟨?_, ?_, rfl, rfl⟩
  · intro j hj
    obtain ⟨hfj, _⟩ := hinv j (Nat.le_succ_of_le hj)
    have hnl : ¬ ({ u with attempts := j } : User).attempts > cfg.max_attempts :=
      Nat.not_lt.mpr hj
    have hpin : pin ≠ ({ u with attempts := j } : User).pin := hp
    rw [setPassword_wrongPin hfj hnl hpin]
  · intro pin2 password2 now2
    obtain ⟨hfj, _⟩ := hinv (cfg.max_attempts + 1) (Nat.le_refl _)
    have hlock : ({ u with attempts := cfg.max_attempts + 1 } : User).attempts
        > cfg.max_attempts := Nat.lt_succ_self _
    rw [setPassword_locked hfj hlock]

/-- C2 (amended), at a concrete fresh request with `max_attempts = 1`:
the wrong-PIN attempt after one recorded failure still reports
`WrongPin`, and the attempt after two recorded failures reports
`AccountLocked` despite the correct PIN. -/
theorem lockout_after_max_attempts_plus_one_witness :
    (WfStore storeW ∧ findByToken storeW "tok1" = some uW
      ∧ uW.attempts = 0 ∧ "0000" ≠ uW.pin)
    ∧ (setPassword cfg1 cpOk (afterWrong cfg1 cpOk "tok1" "0000" "np" 0 1 storeW)
        "tok1" "0000" "np" 0).2 = some SetpassError.WrongPinException
    ∧ (setPassword cfg1 cpOk (afterWrong cfg1 cpOk "tok1" "0000" "np" 0 2 storeW)
        "tok1" "1234" "np" 0).2 = some SetpassError.AccountLocked := by
  have h := lockout_after_max_attempts_plus_one cfg1 cpOk storeW "tok1" "0000" "np" 0 uW
    (by decide) (by decide) (by decide) (by decide)
  exact ⟨⟨by decide, by decide, by decide, by decide⟩,
    h.1 1 (by decide), h.2.1 "1234" "np" 0⟩

/-- C4 as stated is false on the code: provisioning (`add`) a `user_id`
that already has a record with one recorded failed attempt resets
`attempts` from 1 back to 0 — the upsert decreases `attempts`. -/
theorem attempts_reset_by_upsert_counterexample :
    (findByUserId storeA "uid1").map User.attempts = some 1
    ∧ (findByUserId
        (add chkOk "tok2" 50 storeA "uid1" (some "adm")
          (some { pin := none, password := none })).2 "uid1").map User.attempts
      = some 0 := by
  decide

/-- C4 (amended): under redemption operations (including wrong-PIN
failed-attempt recording) the `attempts` field of the record for a given
`user_id` never decreases; the provisioning/upsert operation instead
resets `attempts` to 0. -/
theorem attempts_monotone_except_upsert
    (cfg : Config) (changePw : String → String → String → Except String Unit)
    (store : List User) (token pin password : String) (now : Int)
    (hwf : WfStore store) :
    (∀ uid v v', findByUserId store uid = some v →
      findByUserId (setPassword cfg changePw store token pin password now).1 uid
        = some v' →
      v.attempts ≤ v'.attempts)
    ∧ (∀ check_admin fresh_token now2 uid tok payload u,
        tok ≠ "" → check_admin tok = true →
        findByUserId store uid = some u →
        (findByUserId
            (add check_admin fresh_token now2 store uid (some tok) (some payload)).2
            uid).map User.attempts
          = some 0) := by
  constructor
  · intro uid v v' hv hv'
    rcases setPassword_cases cfg changePw store token pin password now with
      ⟨_, heq⟩ | ⟨u, _, hcase⟩
    · have hv2 : findByUserId store uid = some v' := by rw [heq] at hv'; exact hv'
      rw [hv] at hv2
      rw [← Option.some.inj hv2]
    · rcases hcase with heq | heq | heq | ⟨msg, heq⟩ | heq
      · have hv2 : findByUserId store uid = some v' := by rw [heq] at hv'; exact hv'
        rw [hv] at hv2
        rw [← Option.some.inj hv2]
      · have hv2 : findByUserId (increaseAttempts store u) uid = some v' := by
          rw [heq] at hv'; exact hv'
        rw [findByUserId_increaseAttempts, hv] at hv2
        rw [← Option.some.inj hv2]
        exact bumpAttempts_le u v
      · have hv2 : findByUserId store uid = some v' := by rw [heq] at hv'; exact hv'
        rw [hv] at hv2
        rw [← Option.some.inj hv2]
      · have hv2 : findByUserId store uid = some v' := by rw [heq] at hv'; exact hv'
        rw [hv] at hv2
        rw [← Option.some.inj hv2]
      · have hv2 : findByUserId (deleteUser store u) uid = some v' := by
          rw [heq] at hv'; exact hv'
        have hv'mem : v' ∈ store := List.mem_of_mem_filter (findByUserId_some_mem hv2)
        have hvmem : v ∈ store := findByUserId_some_mem hv
        have hvv : v' = v := wf_userId_unique hwf hv'mem hvmem
          (by rw [findByUserId_some_user_id hv2, findByUserId_some_user_id hv])
        rw [hvv]
  · intro check_admin fresh_token now2 uid tok payload u htok hadm hfind
    have heq := @add_existing check_admin fresh_token now2 store uid tok payload u
      htok hadm hfind
    have huid : u.user_id = uid := findByUserId_some_user_id hfind
    have h2 : (add check_admin fresh_token now2 store uid (some tok) (some payload)).2
        = replaceUser store u.user_id
            { user_id := u.user_id, token := fresh_token,
              pin := payload.pin.getD u.pin,
              password := payload.password.getD u.password,
              attempts := 0, updated_at := now2 } := by rw [heq]
    rw [h2, ← huid, findByUserId_replaceUser store u.user_id
      { user_id := u.user_id, token := fresh_token,
        pin := payload.pin.getD u.pin,
        password := payload.password.getD u.password,
        attempts := 0, updated_at := now2 } rfl]
    rw [← huid] at hfind
    rw [hfind]
    simp

/-- C4 (amended), at concrete requests: a wrong-PIN redemption takes
`attempts` from 0 to 1, and an upsert of the same user yields a record
with `attempts = 0`. -/
theorem attempts_monotone_except_upsert_witness :
    uW.attempts ≤ uA.attempts
    ∧ (findByUserId
        (add chkOk "tok2" 50 storeW "uid1" (some "adm")
          (some { pin := none, password := none })).2 "uid1").map User.attempts
      = some 0 := by
  have h := attempts_monotone_except_upsert cfgW cpOk storeW "tok1" "0000" "np" 0
    (by decide)
  exact ⟨h.1 "uid1" uW uA (by decide) (by decide),
    h.2 chkOk "tok2" 50 "uid1" "adm" { pin := none, password := none } uW
      (by decide) (by decide) (by decide)⟩

/-- C7: provisioning a `user_id` that already has a stored request
replaces its token with the freshly generated one, resets `attempts` to
0, refreshes `updated_at`, updates `pin`/`password` only when supplied
in the body (omitted fields keep their prior values), and responds with
the new token. -/
theorem upsert_existing_updates_fields
    (check_admin : String → Bool) (fresh_token : String) (now : Int)
    (store : List User) (user_id tok : String) (payload : Payload) (u : User)
    (htok : tok ≠ "") (hadm : check_admin tok = true)
    (hfind : findByUserId store user_id = some u) :
    (add check_admin fresh_token now store user_id (some tok) (some payload)).1
      = .ok fresh_token
    ∧ findByUserId
        (add check_admin fresh_token now store user_id (some tok) (some payload)).2
        user_id
      = some { user_id := u.user_id, token := fresh_token,
               pin := payload.pin.getD u.pin,
               password := payload.password.getD u.password,
               attempts := 0, updated_at := now } := by
  have heq := @add_existing check_admin fresh_token now store user_id tok payload u
    htok hadm hfind
  have huid : u.user_id = user_id := findByUserId_some_user_id hfind
  refine ⟨by rw [heq], ?_⟩
  have h2 : (add check_admin fresh_token now store user_id (some tok) (some payload)).2
      = replaceUser store u.user_id
          { user_id := u.user_id, token := fresh_token,
            pin := payload.pin.getD u.pin,
            password := payload.password.getD u.password,
            attempts := 0, updated_at := now } := by rw [heq]
  rw [h2, ← huid, findByUserId_replaceUser store u.user_id
    { user_id := u.user_id, token := fresh_token,
      pin := payload.pin.getD u.pin,
      password := payload.password.getD u.password,
      attempts := 0, updated_at := now } rfl]
  rw [← huid] at hfind
  rw [hfind]
  simp

/-- C7, at a concrete existing request (`attempts = 1`) with only `pin`
supplied: the token is replaced, `attempts` reset, `updated_at`
refreshed, `pin` updated, and the omitted `password` kept. -/
theorem upsert_existing_updates_fields_witness :
    ("adm" ≠ "" ∧ chkOk "adm" = true ∧ findByUserId storeA "uid1" = some uA)
    ∧ (add chkOk "tok2" 50 storeA "uid1" (some "adm")
        (some { pin := some "9876", password := none })).1 = AddResp.ok "tok2"
    ∧ findByUserId
        (add chkOk "tok2" 50 storeA "uid1" (some "adm")
          (some { pin := some "9876", password := none })).2 "uid1"
      = some { user_id := "uid1", token := "tok2", pin := "9876",
               password := "oldpw", attempts := 0, updated_at := 50 } := by
  have h := upsert_existing_updates_fields chkOk "tok2" 50 storeA "uid1" "adm"
    { pin := some "9876", password := none } uA (by decide) (by decide) (by decide)
  exact ⟨⟨by decide, by decide, by decide⟩, h.1, h.2⟩

/-- C8: the provisioning operation fails with `Unauthorized` (HTTP 401)
when no credential header is supplied (absent or empty, both falsy in
the source) and with `Forbidden` (HTTP 403) when the external
admin-credential check rejects the credential; in both cases the store
is unchanged. -/
theorem add_auth_failures_leave_store
    (check_admin : String → Bool) (fresh_token : String) (now : Int)
    (store : List User) (user_id : String) (body : Option Payload) :
    add check_admin fresh_token now store user_id none body = (.unauthorized, store)
    ∧ add check_admin fresh_token now store user_id (some "") body
        = (.unauthorized, store)
    ∧ (∀ tok, tok ≠ "" → check_admin tok = false →
        add check_admin fresh_token now store user_id (some tok) body
          = (.forbidden, store))
    ∧ addStatus .unauthorized = some 401
    ∧ addStatus .forbidden = some 403 := by
  refine ⟨rfl, ?_, ?_, rfl, rfl⟩
  · unfold add
    simp
  · intro tok htok hchk
    unfold add
    simp [htok, hchk]

/-- C8, at a concrete store with a rejecting admin check. -/
theorem add_auth_failures_leave_store_witness :
    add chkNo "tok2" 0 storeW "uid1" none (some { pin := none, password := none })
      = (AddResp.unauthorized, storeW)
    ∧ add chkNo "tok2" 0 storeW "uid1" (some "adm")
        (some { pin := none, password := none })
      = (AddResp.forbidden, storeW) := by
  have h := add_auth_failures_leave_store chkNo "tok2" 0 storeW "uid1"
    (some { pin := none, password := none })
  exact ⟨h.1, h.2.2.1 "adm" (by decide) (by decide)⟩

/-- C10: provisioning a `user_id` with no existing record, with a body
that is not valid JSON or lacks the `pin` or the `password` key, ends in
an unhandled error (none of the specified error responses) and creates
no record in the store. -/
theorem add_missing_payload_unhandled
    (check_admin : String → Bool) (fresh_token : String) (now : Int)
    (store : List User) (user_id tok : String)
    (htok : tok ≠ "") (hadm : check_admin tok = true)
    (hfind : findByUserId store user_id = none) :
    add check_admin fresh_token now store user_id (some tok) none
      = (.unhandledError, store)
    ∧ (∀ ppw, add check_admin fresh_token now store user_id (some tok)
        (some { pin := none, password := ppw }) = (.unhandledError, store))
    ∧ (∀ ppin, add check_admin fresh_token now store user_id (some tok)
        (some { pin := ppin, password := none }) = (.unhandledError, store))
    ∧ addStatus .unhandledError = none := by
  refine ⟨?_, ?_, ?_, rfl⟩
  · unfold add
    simp [htok, hadm]
  · intro ppw
    unfold add
    simp [htok, hadm, hfind]
  · intro ppin
    cases ppin <;> (unfold add; simp [htok, hadm, hfind])

/-- C10, on an empty store: invalid JSON, a body without `pin`, and a
body without `password` each end unhandled and leave the store empty. -/
theorem add_missing_payload_unhandled_witness :
    ("adm" ≠ "" ∧ chkOk "adm" = true ∧ findByUserId ([] : List User) "uid9" = none)
    ∧ add chkOk "tok2" 0 [] "uid9" (some "adm") none = (AddResp.unhandledError, [])
    ∧ add chkOk "tok2" 0 [] "uid9" (some "adm")
        (some { pin := none, password := some "pw" }) = (AddResp.unhandledError, [])
    ∧ add chkOk "tok2" 0 [] "uid9" (some "adm")
        (some { pin := some "1234", password := none })
      = (AddResp.unhandledError, []) := by
  have h := add_missing_payload_unhandled chkOk "tok2" 0 [] "uid9" "adm"
    (by decide) (by decide) (by decide)
  exact ⟨⟨by decide, by decide, by decide⟩, h.1, h.2.1 (some "pw"), h.2.2.1 (some "1234")⟩

end Setpass
